import Mathlib

/-!
# Verification of the incremental data-loading subsystem

Shallow embedding of the core of the photo-organizer repository:

* `UseRetry` — the bounded-retry-with-backoff execution wrapper
  (`src/unnamed/part_014`, the `useRetry` hook).
* `InfiniteScroll` — the intersection-observer-driven infinite-scroll
  controller (`src/src/hooks/useInfiniteScroll.ts`).
* `ImagePreloader` — the image preload cache with priority scheduling,
  admission control and statistics (`src/src/utils/imagePreloader.ts`).
* `InfiniteAlbums` — the paginated album loader
  (`src/src/hooks/useInfiniteAlbums.ts`).

JavaScript numbers are modelled as exact rationals (`ℚ`), JS `Error`
objects as a structure carrying an identity tag and a message, promises
settled by the routines themselves as explicit outcomes, and the
asynchronous control flow as state machines driven by event lists.
-/

namespace PhotoApp

/-! ## JS errors

A JS `Error` object: `id` models reference identity (two distinct `Error`
objects with equal messages have different `id`s), `message` the `.message`
field.  A throwable JS value is either an `Error` or some non-`Error`
value (`catch (error)` in `execute` distinguishes `error instanceof Error`).
-/

structure JsError where
  id : Nat
  message : String
deriving DecidableEq

inductive Thrown where
  | err (e : JsError)
  | nonError
deriving DecidableEq

/-- `const err = error instanceof Error ? error : new Error('Unknown error')`
(useRetry, catch branch).  The fresh `Error` object is modelled with
identity tag `0`. -/
def normalizeThrown : Thrown → JsError
  | .err e => e
  | .nonError => ⟨0, "Unknown error"⟩

/-! ## String containment (JS `String.prototype.includes`) -/

def listWithin (pat : List Char) : List Char → Bool
  | [] => pat.isPrefixOf []
  | s@(_ :: t) => pat.isPrefixOf s || listWithin pat t

/-- `s.includes(pat)` on JS strings. -/
def strWithin (s pat : String) : Bool := listWithin pat.toList s.toList

/-! ## The retry executor (`useRetry` in `src/unnamed/part_014`) -/

/-- `defaultRetryCondition` (useRetry lines 24-29): retry iff the message
contains `'network'`, `'timeout'` or `'fetch'`. -/
def defaultRetryCondition (e : JsError) : Bool :=
  strWithin e.message "network" ||
  strWithin e.message "timeout" ||
  strWithin e.message "fetch"

/-- The options of `useRetry`, with the source defaults. -/
structure RetryOptions where
  maxRetries : Nat := 3
  initialDelay : ℚ := 1000
  maxDelay : ℚ := 10000
  backoffFactor : ℚ := 2
  retryCondition : JsError → Bool := defaultRetryCondition

/-- `calculateDelay` (useRetry lines 47-54): cap the exponential backoff at
`maxDelay`, then add jitter `Math.random() * 0.1 * delayMs`; `rand` models
the value drawn from `Math.random()` (in `[0,1)`). -/
def calculateDelay (o : RetryOptions) (attempt : Nat) (rand : ℚ) : ℚ :=
  let delayMs := min (o.initialDelay * o.backoffFactor ^ attempt) o.maxDelay
  delayMs + rand * (1 / 10) * delayMs

/-- The jitter-free part of `calculateDelay`:
`Math.min(initialDelay * Math.pow(backoffFactor, attempt), maxDelay)`. -/
def baseDelay (o : RetryOptions) (attempt : Nat) : ℚ :=
  min (o.initialDelay * o.backoffFactor ^ attempt) o.maxDelay

theorem calculateDelay_eq (o : RetryOptions) (attempt : Nat) (rand : ℚ) :
    calculateDelay o attempt rand =
      baseDelay o attempt + rand * (1 / 10) * baseDelay o attempt := rfl

/-- The `while (attempt <= maxRetries)` loop of `execute` (useRetry lines
56-93).  `op n` is the settled outcome of the `n`-th invocation of the
wrapped operation `fn`; `rand n` the `Math.random()` draw used for the
delay taken at loop iteration `attempt = n`.  `fuel` is the number of loop
iterations still permitted by the loop guard (`maxRetries + 1 - attempt`);
the `fuel = 0` branch is the `throw lastError` line after the loop, which
the source comments "should never be reached".

Returns the settled result of `execute`, the number of invocations of the
operation, and the list of backoff delays taken (in order). -/
def executeLoop (o : RetryOptions) (op : Nat → Except Thrown α) (rand : Nat → ℚ) :
    Nat → Nat → Option JsError → Except JsError α × Nat × List ℚ
  | _, 0, lastError => (.error (lastError.getD ⟨0, "null"⟩), 0, [])
  | attempt, fuel + 1, _ =>
    let delays := if attempt = 0 then [] else [calculateDelay o (attempt - 1) (rand attempt)]
    match op attempt with
    | .ok v => (.ok v, 1, delays)
    | .error t =>
      let err := normalizeThrown t
      if decide (o.maxRetries ≤ attempt) || !o.retryCondition err then
        (.error err, 1, delays)
      else
        let p := executeLoop o op rand (attempt + 1) fuel (some err)
        (p.1, p.2.1 + 1, delays ++ p.2.2)

/-- `execute(fn)`: run the retry loop from `attempt = 0` with `lastError`
initially `null`. -/
def execute (o : RetryOptions) (op : Nat → Except Thrown α) (rand : Nat → ℚ) :
    Except JsError α × Nat × List ℚ :=
  executeLoop o op rand 0 (o.maxRetries + 1) none

/-! ## Retry executor lemmas -/

/-- Running the loop from retry attempt `attempt ≥ 1` against an operation
that always rejects with the retryable error `e` consumes all remaining
fuel, taking one delay per iteration, and rethrows `e`. -/
theorem executeLoop_const_fail (o : RetryOptions) (op : Nat → Except Thrown α)
    (rand : Nat → ℚ) (e : JsError)
    (hop : ∀ n, op n = .error (.err e)) (hc : o.retryCondition e = true) :
    ∀ fuel attempt le, attempt = o.maxRetries + 1 - fuel → 1 ≤ attempt →
      attempt ≤ o.maxRetries →
      executeLoop o op rand attempt fuel le =
        (.error e, fuel,
          (List.range' attempt fuel).map fun j => calculateDelay o (j - 1) (rand j)) := by
  intro fuel
  induction fuel with
  | zero => intro attempt le h1 h2 h3; omega
  | succ fuel ih =>
    intro attempt le h1 h2 h3
    have ha : ¬ attempt = 0 := by omega
    rw [executeLoop]
    simp only [hop attempt, normalizeThrown, ha, if_false]
    by_cases hend : o.maxRetries ≤ attempt
    · have hfz : fuel = 0 := by omega
      subst hfz
      simp [hend, hc, List.range'_succ]
    · have hlt : ¬ (o.maxRetries ≤ attempt) := hend
      simp only [decide_eq_true_eq, hlt, decide_eq_false_iff_not, hc, Bool.not_true,
        Bool.or_false, decide_eq_false hlt, Bool.false_or, if_false]
      rw [ih (attempt + 1) (some e) (by omega) (by omega) (by omega)]
      simp [List.range'_succ]

/-- Full description of `execute` against an always-failing retryable
operation: it rethrows `e` after `maxRetries + 1` invocations, having taken
the delay `calculateDelay (j - 1)` before retry attempt `j` for
`j = 1, …, maxRetries`. -/
theorem execute_const_fail (o : RetryOptions) (op : Nat → Except Thrown α)
    (rand : Nat → ℚ) (e : JsError)
    (hop : ∀ n, op n = .error (.err e)) (hc : o.retryCondition e = true) :
    execute o op rand =
      (.error e, o.maxRetries + 1,
        (List.range' 1 o.maxRetries).map fun j => calculateDelay o (j - 1) (rand j)) := by
  rw [execute, executeLoop]
  simp only [hop 0, normalizeThrown, if_true]
  by_cases h0 : o.maxRetries = 0
  · simp [h0, hc]
  · have hle : ¬ (o.maxRetries ≤ 0) := by omega
    simp only [decide_eq_false hle, hc, Bool.not_true, Bool.or_false, if_false]
    rw [executeLoop_const_fail o op rand e hop hc o.maxRetries 1 (some e)
      (by omega) (by omega) (by omega)]
    simp

/-- C1 (retry ceiling): with `maxRetries = N` and an operation that on
every invocation rejects with the same retryable `Error` instance `e`, the
operation is invoked exactly `N + 1` times and `execute` rethrows that same
error instance `e` unchanged. -/
theorem retry_ceiling (o : RetryOptions) (op : Nat → Except Thrown α)
    (rand : Nat → ℚ) (e : JsError)
    (hop : ∀ n, op n = .error (.err e)) (hc : o.retryCondition e = true) :
    (execute o op rand).1 = .error e ∧ (execute o op rand).2.1 = o.maxRetries + 1 := by
  rw [execute_const_fail o op rand e hop hc]
  exact ⟨rfl, rfl⟩

theorem retry_ceiling_witness :
    ({ maxRetries := 2 } : RetryOptions).retryCondition ⟨1, "network down"⟩ = true ∧
    ((execute { maxRetries := 2 }
        (fun _ => .error (.err ⟨1, "network down"⟩) : Nat → Except Thrown Nat)
        fun _ => 0).1 = .error ⟨1, "network down"⟩ ∧
      (execute { maxRetries := 2 }
        (fun _ => .error (.err ⟨1, "network down"⟩) : Nat → Except Thrown Nat)
        fun _ => 0).2.1 = 3) :=
  ⟨by decide,
   retry_ceiling { maxRetries := 2 } _ (fun _ => 0) ⟨1, "network down"⟩
     (fun _ => rfl) (by decide)⟩

/-- C4 (backoff shape): in an always-failing retryable run, the backoff
delay taken before retry attempt `k ≥ 1` is exactly
`calculateDelay (k - 1)`, which equals the capped base delay
`min (initialDelay * backoffFactor ^ (k-1)) maxDelay` plus an additive
jitter of at most 10% of that capped value (the cap is applied before the
jitter is added); and for `backoffFactor > 1` the jitter-free base delays
are non-decreasing in `k` and bounded by `maxDelay`. -/
theorem backoff_delay (o : RetryOptions) (op : Nat → Except Thrown α)
    (rand : Nat → ℚ) (e : JsError) (k : Nat)
    (hop : ∀ n, op n = .error (.err e)) (hc : o.retryCondition e = true)
    (hk1 : 1 ≤ k) (hk2 : k ≤ o.maxRetries)
    (_hr0 : 0 ≤ rand k) (hr1 : rand k < 1)
    (hI : 0 ≤ o.initialDelay) (hM : 0 ≤ o.maxDelay) (hb : 1 < o.backoffFactor) :
    (execute o op rand).2.2[k - 1]? = some (calculateDelay o (k - 1) (rand k)) ∧
    calculateDelay o (k - 1) (rand k) =
      baseDelay o (k - 1) + rand k * (1 / 10) * baseDelay o (k - 1) ∧
    baseDelay o (k - 1) = min (o.initialDelay * o.backoffFactor ^ (k - 1)) o.maxDelay ∧
    rand k * (1 / 10) * baseDelay o (k - 1) ≤ (1 / 10) * baseDelay o (k - 1) ∧
    baseDelay o (k - 1) ≤ baseDelay o k ∧
    baseDelay o (k - 1) ≤ o.maxDelay := by
  have hb0 : (0 : ℚ) ≤ o.backoffFactor := by linarith
  have hbase : ∀ j : Nat, 0 ≤ baseDelay o j := fun j =>
    le_min (mul_nonneg hI (pow_nonneg hb0 j)) hM
  refine ⟨?_, rfl, rfl, ?_, ?_, min_le_right _ _⟩
  · rw [execute_const_fail o op rand e hop hc]
    have hlt : k - 1 < o.maxRetries := by omega
    simp only [List.getElem?_map, List.getElem?_range' 1 1 hlt, Option.map_some']
    have : 1 + 1 * (k - 1) = k := by omega
    rw [this]
  · have h10 : rand k * (1 / 10) ≤ 1 / 10 := by linarith
    exact mul_le_mul_of_nonneg_right h10 (hbase (k - 1))
  · unfold baseDelay
    refine min_le_min (mul_le_mul_of_nonneg_left ?_ hI) le_rfl
    exact pow_le_pow_right₀ hb.le (by omega)

/-- Concrete configuration used by the backoff witness. -/
def sampleRetryOptions : RetryOptions :=
  { maxRetries := 3, initialDelay := 1000, maxDelay := 10000, backoffFactor := 2 }

theorem backoff_delay_witness :
    1 ≤ 2 ∧
    (execute sampleRetryOptions
      (fun _ => .error (.err ⟨1, "network down"⟩) : Nat → Except Thrown Nat)
      (fun _ => 0)).2.2[1]? =
      some (calculateDelay sampleRetryOptions 1 0) :=
  ⟨by decide,
   (backoff_delay sampleRetryOptions _ (fun _ => 0) ⟨1, "network down"⟩ 2
     (fun _ => rfl) (by decide) (by decide) (by decide) (by decide) (by decide)
     (by decide) (by decide) (by decide)).1⟩

/-- C5 (retry predicate short-circuit): an operation whose first rejection
is not accepted by the retry predicate is invoked exactly once and its
error is rethrown; and the default retry predicate accepts an error
exactly when its message contains `'network'`, `'timeout'` or `'fetch'`,
so messages such as `"not found"` and `"invalid"` are never retried by
default. -/
theorem retry_short_circuit (o : RetryOptions) (op : Nat → Except Thrown α)
    (rand : Nat → ℚ) (e e' : JsError) (i : Nat)
    (hop0 : op 0 = .error (.err e)) (hc : o.retryCondition e = false) :
    (execute o op rand).1 = .error e ∧ (execute o op rand).2.1 = 1 ∧
    (defaultRetryCondition e' = true ↔
      (strWithin e'.message "network" = true ∨ strWithin e'.message "timeout" = true ∨
        strWithin e'.message "fetch" = true)) ∧
    defaultRetryCondition ⟨i, "not found"⟩ = false ∧
    defaultRetryCondition ⟨i, "invalid"⟩ = false := by
  have hex : execute o op rand = (.error e, 1, []) := by
    rw [execute, executeLoop]
    simp [hop0, normalizeThrown, hc]
  refine ⟨by rw [hex], by rw [hex], ?_, rfl, rfl⟩
  simp [defaultRetryCondition, Bool.or_eq_true, or_assoc]

theorem retry_short_circuit_witness :
    ({} : RetryOptions).retryCondition ⟨7, "not found"⟩ = false ∧
    ((execute ({} : RetryOptions)
        (fun _ => .error (.err ⟨7, "not found"⟩) : Nat → Except Thrown Nat)
        fun _ => 0).1 = .error ⟨7, "not found"⟩ ∧
      (execute ({} : RetryOptions)
        (fun _ => .error (.err ⟨7, "not found"⟩) : Nat → Except Thrown Nat)
        fun _ => 0).2.1 = 1) :=
  ⟨by decide,
   ⟨(retry_short_circuit {} _ (fun _ => 0) ⟨7, "not found"⟩ ⟨0, ""⟩ 0 rfl (by decide)).1,
    (retry_short_circuit {} _ (fun _ => 0) ⟨7, "not found"⟩ ⟨0, ""⟩ 0 rfl (by decide)).2.1⟩⟩

/-! ## The infinite-scroll controller (`src/src/hooks/useInfiniteScroll.ts`)

The controller's observable state and its reaction to events, read off the
hook: `loadMore` (lines 101-117) guards on `isLoading || !hasNextPage`,
then sets `isLoading`, clears `error`, invokes the callback once, and on
settlement clears `isLoading` (recording the message on rejection);
`handleIntersection` (lines 120-131) forwards a visibility entry to
`loadMore` when `entry.isIntersecting && hasNextPage && !isLoading`.
-/

namespace InfiniteScroll

structure ScrollState where
  isLoading : Bool
  hasNextPage : Bool
  error : Option String
deriving DecidableEq

/-- Initial hook state: `useState(false)`, `useState(true)`, `useState(null)`. -/
def initialState : ScrollState := ⟨false, true, none⟩

/-- Events driving the controller: a visibility transition of the sentinel
(the `isIntersecting` flag of the observed entry), and the settlement of
the pending fetch callback (fulfilled or rejected with a message). -/
inductive Event where
  | intersect (isIntersecting : Bool)
  | resolve
  | reject (msg : String)
deriving DecidableEq

/-- `loadMore`: returns the new state and the number of fetch-callback
invocations this call performs (`1` when the guard passes, else `0`). -/
def loadMore (s : ScrollState) : ScrollState × Nat :=
  if s.isLoading || !s.hasNextPage then (s, 0)
  else ({ s with isLoading := true, error := none }, 1)

/-- `handleIntersection` applied to the observed entry. -/
def handleIntersection (s : ScrollState) (isIntersecting : Bool) : ScrollState × Nat :=
  if isIntersecting && s.hasNextPage && !s.isLoading then loadMore s else (s, 0)

/-- One event step.  Settlement of the pending callback runs the
`catch`/`finally` of `loadMore`: rejection records the message, and in
both cases `isLoading` is cleared. -/
def step (s : ScrollState) : Event → ScrollState × Nat
  | .intersect b => handleIntersection s b
  | .resolve => ({ s with isLoading := false }, 0)
  | .reject m => ({ s with isLoading := false, error := some m }, 0)

/-- Process a list of events, accumulating fetch-callback invocations. -/
def run (s : ScrollState) : List Event → ScrollState × Nat
  | [] => (s, 0)
  | e :: es =>
    let p := step s e
    let q := run p.1 es
    (q.1, p.2 + q.2)

theorem run_intersect_while_loading (bs : List Bool) (s : ScrollState)
    (h : s.isLoading = true) :
    run s (bs.map Event.intersect) = (s, 0) := by
  induction bs with
  | nil => rfl
  | cons b bs ih =>
    simp only [List.map_cons, run, step, handleIntersection, h, Bool.not_true,
      Bool.and_false, if_false]
    simpa using ih

end InfiniteScroll

/-- C2 (scroll single in-flight): from a non-loading state with a next
page, a visibility-intersecting signal followed by any burst of further
visibility signals arriving before the pending fetch settles invokes the
fetch callback exactly once; the later signals are dropped without
changing the state, and the single fetch stays in flight (`isLoading`)
until settlement. -/
theorem scroll_single_in_flight (s : InfiniteScroll.ScrollState) (bs : List Bool)
    (h1 : s.isLoading = false) (h2 : s.hasNextPage = true) :
    InfiniteScroll.run s (.intersect true :: bs.map .intersect) =
      ({ isLoading := true, hasNextPage := s.hasNextPage, error := none }, 1) := by
  have hstep : InfiniteScroll.step s (.intersect true) =
      ({ isLoading := true, hasNextPage := s.hasNextPage, error := none }, 1) := by
    simp [InfiniteScroll.step, InfiniteScroll.handleIntersection,
      InfiniteScroll.loadMore, h1, h2]
  simp only [InfiniteScroll.run, hstep]
  rw [InfiniteScroll.run_intersect_while_loading bs _ rfl]
  rfl

theorem scroll_single_in_flight_witness :
    InfiniteScroll.initialState.isLoading = false ∧
    InfiniteScroll.run InfiniteScroll.initialState
      (.intersect true :: [true, true, false, true].map .intersect) =
      ({ isLoading := true, hasNextPage := true, error := none }, 1) :=
  ⟨rfl,
   scroll_single_in_flight InfiniteScroll.initialState [true, true, false, true] rfl rfl⟩

/-! ## The image preload cache (`src/src/utils/imagePreloader.ts`)

State of the `ImagePreloader` singleton: the `cache` map (url to loaded
image, of which only the natural dimensions are observable), the key set
of the `loadingPromises` map, and the running statistics.  The
asynchronous `preload` is modelled by its synchronous prefix: everything
it does before either returning a settled result or returning the
(possibly fresh) in-flight promise for the url.
-/

namespace ImagePreloader

inductive Priority where
  | high
  | medium
  | low
deriving DecidableEq

structure ImgSize where
  width : Nat
  height : Nat
deriving DecidableEq

structure PreloadResult where
  success : Bool
  error : Option String := none
  duration : ℚ
  size : Option ImgSize := none
deriving DecidableEq

structure PreloadStats where
  total : Nat
  successful : Nat
  failed : Nat
  totalTime : ℚ
  averageTime : ℚ
  cacheHitRate : ℚ
deriving DecidableEq

def initialStats : PreloadStats :=
  { total := 0, successful := 0, failed := 0, totalTime := 0,
    averageTime := 0, cacheHitRate := 0 }

/-- `PreloadOptions` with the `defaultOptions` of the class as defaults. -/
structure PreloadOptions where
  priority : Priority := .medium
  maxConcurrent : Nat := 6
  timeout : ℚ := 10000
  respectDataSaver : Bool := true
  respectMemoryConstraints : Bool := true

/-- Environment signals read from `navigator`: whether a (truthy)
`connection` object exists and its `saveData` flag, and `deviceMemory`
when advertised. -/
structure EnvSignals where
  hasConnection : Bool
  saveData : Bool
  deviceMemory : Option ℚ

structure PreloaderState where
  cache : List (String × ImgSize)
  loadingUrls : List String
  stats : PreloadStats
deriving DecidableEq

def initialState : PreloaderState := ⟨[], [], initialStats⟩

/-- `this.cache.get(url)`, restricted to the observable natural dimensions. -/
def cacheGet (st : PreloaderState) (url : String) : Option ImgSize :=
  (st.cache.find? fun p => p.1 == url).map Prod.snd

/-- `updateStats` (lines 307-324): `total` is incremented first and the
incremented value is used in the average and in the weighted rolling
cache-hit-rate update. -/
def updateStats (st : PreloadStats) (success : Bool) (duration : ℚ)
    (fromCache : Bool) : PreloadStats :=
  let total := st.total + 1
  { total
    successful := if success then st.successful + 1 else st.successful
    failed := if success then st.failed else st.failed + 1
    totalTime := st.totalTime + duration
    averageTime := (st.totalTime + duration) / (total : ℚ)
    cacheHitRate :=
      if fromCache then (st.cacheHitRate * ((total : ℚ) - 1) + 1) / (total : ℚ)
      else (st.cacheHitRate * ((total : ℚ) - 1)) / (total : ℚ) }

/-- `getCacheInfo().memoryEstimateMB`: `size * 100 / 1024`. -/
def memoryEstimateMB (st : PreloaderState) : ℚ :=
  ((st.cache.length : ℚ) * 100) / 1024

/-- `shouldPreload` (lines 274-302): refuse when data saver is on, when
the cache memory estimate exceeds 50 MB, or when the advertised device
memory is (truthy and) below 2 GB. -/
def shouldPreload (st : PreloaderState) (env : EnvSignals) (o : PreloadOptions) : Bool :=
  if o.respectDataSaver && env.hasConnection && env.saveData then false
  else if o.respectMemoryConstraints && decide (50 < memoryEstimateMB st) then false
  else if o.respectMemoryConstraints &&
      (match env.deviceMemory with
        | some m => decide (m ≠ 0 ∧ m < 2)
        | none => false) then false
  else true

/-- Result of the synchronous prefix of `preload`: either a settled
`PreloadResult`, or the in-flight promise for `url` (promises are keyed by
url in `loadingPromises`, so equal `pending` outcomes mean the very same
promise and hence the same eventual result). -/
inductive Outcome where
  | done (r : PreloadResult)
  | pending (url : String)
deriving DecidableEq

/-- `preload(url, options)` (lines 68-113), up to its first suspension:
cached hit → immediate success with duration 0 and the cached natural
dimensions (recorded as a cache hit in the stats); url already loading →
the existing in-flight promise is returned unchanged; admission control
refusal → immediate skip result, stats untouched; otherwise a new load is
started (third component counts new underlying loads) and its promise is
registered.  The function never throws. -/
def preload (st : PreloaderState) (env : EnvSignals) (o : PreloadOptions)
    (url : String) : PreloaderState × Outcome × Nat :=
  match cacheGet st url with
  | some dims =>
    ({ st with stats := updateStats st.stats true 0 true },
      .done { success := true, duration := 0, size := some dims }, 0)
  | none =>
    if url ∈ st.loadingUrls then (st, .pending url, 0)
    else if !shouldPreload st env o then
      (st,
        .done { success := false,
                error := some "Preloading skipped due to constraints",
                duration := 0 },
        0)
    else
      ({ st with loadingUrls := st.loadingUrls ++ [url] }, .pending url, 1)

/-- `clear()` (lines 191-202). -/
def clear (_st : PreloaderState) : PreloaderState :=
  { cache := [], loadingUrls := [], stats := initialStats }

end ImagePreloader

/-- C3 (single-flight cache): a `preload` of an already-cached url returns
success immediately with duration 0 and the cached image's natural
dimensions, starting no new load; and for a url whose load is in flight,
a further `preload` returns the existing in-flight promise, so of two
concurrent `preload` calls for the same (uncached, admitted) url the first
starts exactly one underlying load and the second starts none — both
receive the same promise and hence the same eventual result. -/
theorem preload_single_flight (st₁ st₂ : ImagePreloader.PreloaderState)
    (env : ImagePreloader.EnvSignals) (o : ImagePreloader.PreloadOptions)
    (url₁ url₂ : String) (dims : ImagePreloader.ImgSize)
    (hc : ImagePreloader.cacheGet st₁ url₁ = some dims)
    (hn : ImagePreloader.cacheGet st₂ url₂ = none)
    (hl : url₂ ∉ st₂.loadingUrls)
    (hs : ImagePreloader.shouldPreload st₂ env o = true) :
    ImagePreloader.preload st₁ env o url₁ =
      ({ st₁ with stats := ImagePreloader.updateStats st₁.stats true 0 true },
        .done { success := true, duration := 0, size := some dims }, 0) ∧
    ImagePreloader.preload st₂ env o url₂ =
      ({ st₂ with loadingUrls := st₂.loadingUrls ++ [url₂] }, .pending url₂, 1) ∧
    ImagePreloader.preload
        { st₂ with loadingUrls := st₂.loadingUrls ++ [url₂] } env o url₂ =
      ({ st₂ with loadingUrls := st₂.loadingUrls ++ [url₂] }, .pending url₂, 0) := by
  refine ⟨?_, ?_, ?_⟩
  · simp [ImagePreloader.preload, hc]
  · simp [ImagePreloader.preload, hn, hl, hs]
  · have hn' : ImagePreloader.cacheGet
        { st₂ with loadingUrls := st₂.loadingUrls ++ [url₂] } url₂ = none := hn
    simp [ImagePreloader.preload, hn']

theorem preload_single_flight_witness :
    ImagePreloader.cacheGet
      ⟨[("b.png", ⟨2, 3⟩)], [], ImagePreloader.initialStats⟩ "b.png" = some ⟨2, 3⟩ ∧
    ImagePreloader.preload ImagePreloader.initialState ⟨false, false, none⟩ {} "a.png" =
      ({ ImagePreloader.initialState with loadingUrls := ["a.png"] }, .pending "a.png", 1) ∧
    ImagePreloader.preload
        { ImagePreloader.initialState with loadingUrls := ["a.png"] }
        ⟨false, false, none⟩ {} "a.png" =
      ({ ImagePreloader.initialState with loadingUrls := ["a.png"] }, .pending "a.png", 0) :=
  ⟨by decide,
   ((preload_single_flight ⟨[("b.png", ⟨2, 3⟩)], [], ImagePreloader.initialStats⟩
      ImagePreloader.initialState ⟨false, false, none⟩ {} "b.png" "a.png" ⟨2, 3⟩
      (by decide) (by decide) (by decide)
      (by simp [ImagePreloader.shouldPreload, ImagePreloader.memoryEstimateMB,
        ImagePreloader.initialState])).2.1),
   ((preload_single_flight ⟨[("b.png", ⟨2, 3⟩)], [], ImagePreloader.initialStats⟩
      ImagePreloader.initialState ⟨false, false, none⟩ {} "b.png" "a.png" ⟨2, 3⟩
      (by decide) (by decide) (by decide)
      (by simp [ImagePreloader.shouldPreload, ImagePreloader.memoryEstimateMB,
        ImagePreloader.initialState])).2.2)⟩

/-- C8 (constraint skip): when the url is neither cached nor loading and
admission control refuses (`shouldPreload` false), `preload` returns — it
does not throw — a result with `success = false`, duration 0 and the
message "Preloading skipped due to constraints", leaving the state
unchanged: no load is started and the statistics counters are not
updated; and each of the three refusal signals (data saver on, memory
estimate above the 50 MB ceiling, advertised device memory below 2 GB)
makes `shouldPreload` refuse under the corresponding default-on option. -/
theorem preload_constraint_skip (st : ImagePreloader.PreloaderState)
    (env : ImagePreloader.EnvSignals) (o : ImagePreloader.PreloadOptions)
    (url : String) (m : ℚ)
    (hn : ImagePreloader.cacheGet st url = none)
    (hl : url ∉ st.loadingUrls)
    (hs : ImagePreloader.shouldPreload st env o = false) :
    ImagePreloader.preload st env o url =
      (st,
        .done { success := false,
                error := some "Preloading skipped due to constraints",
                duration := 0 },
        0) ∧
    (o.respectDataSaver = true → env.hasConnection = true → env.saveData = true →
      ImagePreloader.shouldPreload st env o = false) ∧
    (o.respectMemoryConstraints = true → 50 < ImagePreloader.memoryEstimateMB st →
      ImagePreloader.shouldPreload st env o = false) ∧
    (o.respectMemoryConstraints = true → env.deviceMemory = some m → m ≠ 0 → m < 2 →
      ImagePreloader.shouldPreload st env o = false) := by
  refine ⟨?_, ?_, ?_, ?_⟩
  · simp [ImagePreloader.preload, hn, hl, hs]
  · intro h1 h2 h3
    simp [ImagePreloader.shouldPreload, h1, h2, h3]
  · intro h1 h2
    simp only [ImagePreloader.shouldPreload, h1]
    split
    · rfl
    · simp [h2]
  · intro h1 h2 h3 h4
    simp only [ImagePreloader.shouldPreload, h1, h2]
    split
    · rfl
    · simp [h3, h4]

theorem preload_constraint_skip_witness :
    ImagePreloader.shouldPreload ImagePreloader.initialState ⟨true, true, none⟩ {} = false ∧
    ImagePreloader.preload ImagePreloader.initialState ⟨true, true, none⟩ {} "a.png" =
      (ImagePreloader.initialState,
        .done { success := false,
                error := some "Preloading skipped due to constraints",
                duration := 0 },
        0) :=
  ⟨by decide,
   (preload_constraint_skip ImagePreloader.initialState ⟨true, true, none⟩ {} "a.png" 0
      (by decide) (by decide) (by decide)).1⟩

/-! ## Statistics invariants -/

namespace ImagePreloader

/-- One completed preload attempt as fed to `updateStats`. -/
structure Attempt where
  success : Bool
  duration : ℚ
  fromCache : Bool

/-- Thread a sequence of completed attempts through `updateStats`. -/
def recordFrom (st : PreloadStats) : List Attempt → PreloadStats
  | [] => st
  | a :: as => recordFrom (updateStats st a.success a.duration a.fromCache) as

/-- Statistics after a sequence of attempts starting from the cleared state. -/
def recordAll (l : List Attempt) : PreloadStats :=
  recordFrom initialStats l

theorem updateStats_total (st : PreloadStats) (s : Bool) (d : ℚ) (c : Bool) :
    (updateStats st s d c).total = st.total + 1 := rfl

theorem updateStats_succ_add_failed (st : PreloadStats) (s : Bool) (d : ℚ) (c : Bool) :
    (updateStats st s d c).successful + (updateStats st s d c).failed =
      st.successful + st.failed + 1 := by
  cases s <;> simp [updateStats] <;> omega

theorem updateStats_hits (st : PreloadStats) (s : Bool) (d : ℚ) (c : Bool) :
    (updateStats st s d c).cacheHitRate * ((updateStats st s d c).total : ℚ) =
      st.cacheHitRate * (st.total : ℚ) + (if c then 1 else 0) := by
  have hz : ((st.total : ℚ) + 1) ≠ 0 := by positivity
  cases c <;>
    simp only [updateStats, if_true, if_false] <;>
    push_cast <;>
    field_simp

theorem recordFrom_props (l : List Attempt) : ∀ st : PreloadStats,
    (recordFrom st l).total = st.total + l.length ∧
    (recordFrom st l).successful + (recordFrom st l).failed =
      st.successful + st.failed + l.length ∧
    (recordFrom st l).totalTime = st.totalTime + (l.map Attempt.duration).sum ∧
    (l ≠ [] → (recordFrom st l).averageTime =
      (recordFrom st l).totalTime / ((recordFrom st l).total : ℚ)) ∧
    (recordFrom st l).cacheHitRate * ((recordFrom st l).total : ℚ) =
      st.cacheHitRate * (st.total : ℚ) + (l.countP Attempt.fromCache : ℚ) := by
  induction l with
  | nil => intro st; simp [recordFrom]
  | cons a as ih =>
    intro st
    obtain ⟨iht, ihsf, ihtt, ihavg, ihhr⟩ := ih (updateStats st a.success a.duration a.fromCache)
    refine ⟨?_, ?_, ?_, ?_, ?_⟩
    · rw [recordFrom, iht, updateStats_total]; simp; omega
    · rw [recordFrom, ihsf, updateStats_succ_add_failed]; simp; omega
    · rw [recordFrom, ihtt]
      show st.totalTime + a.duration + _ = _
      simp [add_assoc]
    · intro _
      rcases eq_or_ne as [] with has | has
      · subst has
        show (updateStats st a.success a.duration a.fromCache).averageTime = _
        rfl
      · exact ihavg has
    · rw [recordFrom, ihhr, updateStats_hits]
      rw [List.countP_cons]
      push_cast
      rcases h : a.fromCache with _ | _ <;> simp [h]
      ring

end ImagePreloader

/-- C10 (statistics invariants): after any sequence of recorded preload
attempts the statistics satisfy `total = successful + failed`,
`total` equals the number of attempts, `totalTime` is the sum of the
durations, `averageTime = totalTime / total` (division by zero is zero, so
this also covers the cleared state), and the incrementally maintained
`cacheHitRate` equals the from-scratch ratio of cache-hit attempts to
`total`; each recorded attempt strictly increments `total` (so counters
never return to zero by recording), and only `clear()` resets the
statistics (and the cache) to the initial zero state. -/
theorem preload_stats_invariants (l : List ImagePreloader.Attempt)
    (a : ImagePreloader.Attempt) (p : ImagePreloader.PreloaderState) :
    (ImagePreloader.recordAll l).total = l.length ∧
    (ImagePreloader.recordAll l).successful + (ImagePreloader.recordAll l).failed =
      (ImagePreloader.recordAll l).total ∧
    (ImagePreloader.recordAll l).totalTime =
      (l.map ImagePreloader.Attempt.duration).sum ∧
    (ImagePreloader.recordAll l).averageTime =
      (ImagePreloader.recordAll l).totalTime / ((ImagePreloader.recordAll l).total : ℚ) ∧
    (ImagePreloader.recordAll l).cacheHitRate =
      (l.countP ImagePreloader.Attempt.fromCache : ℚ) /
        ((ImagePreloader.recordAll l).total : ℚ) ∧
    (ImagePreloader.updateStats (ImagePreloader.recordAll l)
        a.success a.duration a.fromCache).total =
      (ImagePreloader.recordAll l).total + 1 ∧
    ImagePreloader.clear p =
      ⟨[], [], ImagePreloader.initialStats⟩ := by
  obtain ⟨ht, hsf, htt, havg, hhr⟩ :=
    ImagePreloader.recordFrom_props l ImagePreloader.initialStats
  have ht' : (ImagePreloader.recordAll l).total = l.length := by
    rw [ImagePreloader.recordAll, ht]; simp [ImagePreloader.initialStats]
  refine ⟨ht', ?_, ?_, ?_, ?_, rfl, rfl⟩
  · rw [ImagePreloader.recordAll] at *
    rw [hsf, ht]
    simp [ImagePreloader.initialStats]
  · rw [ImagePreloader.recordAll] at *; rw [htt]; simp [ImagePreloader.initialStats]
  · rcases eq_or_ne l [] with hl | hl
    · subst hl; simp [ImagePreloader.recordAll, ImagePreloader.recordFrom,
        ImagePreloader.initialStats]
    · exact havg hl
  · have hz := hhr
    simp only [ImagePreloader.initialStats, Nat.cast_zero, zero_mul, zero_add] at hz
    rcases eq_or_ne l [] with hl | hl
    · subst hl; simp [ImagePreloader.recordAll, ImagePreloader.recordFrom,
        ImagePreloader.initialStats]
    · have htz : ((ImagePreloader.recordAll l).total : ℚ) ≠ 0 := by
        rw [ht']
        simpa using hl
      rw [eq_div_iff htz]
      exact hz

/-! ## Batch preloading (`preloadBatch`, lines 118-141)

`preloadBatch` sorts the submitted items with the comparator
`priorityOrder[b.priority || 'medium'] - priorityOrder[a.priority || 'medium']`
(ECMAScript `Array.prototype.sort` is stable, so it is modelled by a stable
merge sort under the comparator's induced order) and then processes the
sorted list in chunks of `maxConcurrent`, awaiting `Promise.all` of each
chunk before starting the next.  The observable scheduling is modelled as
a trace of `start`/`settle` events: all loads of a chunk start, then all
of them settle, then the next chunk begins.
-/

namespace ImagePreloader

/-- The `priorityOrder` table: `{ high: 3, medium: 2, low: 1 }`. -/
def priorityOrder : Priority → Nat
  | .high => 3
  | .medium => 2
  | .low => 1

/-- One element of the `urls` argument of `preloadBatch`; `priority` is
optional and defaults to `'medium'`. -/
structure BatchItem where
  url : String
  priority : Option Priority := none
deriving DecidableEq

/-- `item.priority || 'medium'`. -/
def effPriority (it : BatchItem) : Priority := it.priority.getD .medium

/-- `a` may stay before `b` under the sort comparator: comparator value
`priorityOrder[b] - priorityOrder[a] ≤ 0`. -/
def batchLE (a b : BatchItem) : Bool :=
  decide (priorityOrder (effPriority b) ≤ priorityOrder (effPriority a))

/-- The stable sort performed by `urls.sort(...)`. -/
def sortByPriority (items : List BatchItem) : List BatchItem :=
  items.mergeSort batchLE

/-- The `for (let i = 0; i < sortedUrls.length; i += maxConcurrent)`
chunking via `slice(i, i + maxConcurrent)`.  (For `n = 0` the source loop
would never advance; the model returns no chunks, which no claim relies
on since `maxConcurrent` is positive.) -/
def chunksOf (n : Nat) : List (α : Type _) → List (List α)
  | [] => []
  | a :: t =>
    if _h : n = 0 then []
    else (a :: t).take n :: chunksOf n ((a :: t).drop n)
termination_by l => l.length
decreasing_by simp [List.length_drop]; omega

/-- Observable scheduling events of a batch. -/
inductive BatchEv where
  | start (it : BatchItem)
  | settle (it : BatchItem)
deriving DecidableEq

/-- Scheduling trace of `preloadBatch`: per chunk, all starts then all
settlements (`Promise.all` of the chunk is awaited before the next chunk). -/
def batchTrace (o : PreloadOptions) (items : List BatchItem) : List BatchEv :=
  (chunksOf o.maxConcurrent (sortByPriority items)).flatMap
    fun c => c.map BatchEv.start ++ c.map BatchEv.settle

theorem batchLE_trans : ∀ a b c : BatchItem,
    batchLE a b = true → batchLE b c = true → batchLE a c = true := by
  intro a b c hab hbc
  simp only [batchLE, decide_eq_true_eq] at *
  omega

theorem batchLE_total : ∀ a b : BatchItem, (batchLE a b || batchLE b a) = true := by
  intro a b
  simp only [batchLE, Bool.or_eq_true, decide_eq_true_eq]
  omega

theorem chunksOf_one : ∀ l : List (α : Type _), chunksOf 1 l = l.map fun a => [a] := by
  intro l
  induction l with
  | nil => simp [chunksOf]
  | cons a t ih => simp [chunksOf, ih]

theorem flatMap_singleton_chunks (g : List BatchItem → List BatchEv) :
    ∀ l : List BatchItem, ((l.map fun a => [a]).flatMap g) = l.flatMap fun a => g [a] := by
  intro l
  induction l with
  | nil => rfl
  | cons a t ih => simp [ih]

/-- Stability of the batch sort: the subsequence of any fixed priority
tier is exactly the submission-order subsequence of that tier. -/
theorem sortByPriority_stable (items : List BatchItem) (p : Priority) :
    (sortByPriority items).filter (fun it => effPriority it == p) =
      items.filter (fun it => effPriority it == p) := by
  set pd : BatchItem → Bool := fun it => effPriority it == p with hpd
  have hpw : (items.filter pd).Pairwise fun a b => batchLE a b = true := by
    apply List.pairwise_of_forall_mem_list
    intro a ha b hb
    have ha' := (List.mem_filter.mp ha).2
    have hb' := (List.mem_filter.mp hb).2
    simp only [hpd, beq_iff_eq] at ha' hb'
    simp [batchLE, ha', hb']
  have hsub : List.Sublist (items.filter pd) (sortByPriority items) :=
    List.sublist_mergeSort batchLE_trans batchLE_total hpw (List.filter_sublist items)
  have hsub2 : List.Sublist (items.filter pd) ((sortByPriority items).filter pd) := by
    have := hsub.filter pd
    simpa [List.filter_filter] using this
  have hlen : ((sortByPriority items).filter pd).length = (items.filter pd).length :=
    ((List.mergeSort_perm items batchLE).filter pd).length_eq
  exact (hsub2.eq_of_length hlen.symm).symm

end ImagePreloader

/-- C9 (priority ordering): with concurrency limit 1, the loads of a batch
are started in the stably-sorted priority order — along the start order
the priority rank is non-increasing, so every high-priority item starts no
later than every medium-priority one, which starts no later than every
low-priority one, and within an equal-priority tier submission order is
preserved — and each chunk (here: each single load) settles before the
next chunk starts. -/
theorem preload_batch_priority (o : ImagePreloader.PreloadOptions)
    (items : List ImagePreloader.BatchItem)
    (h1 : o.maxConcurrent = 1) :
    (ImagePreloader.sortByPriority items).Pairwise
      (fun a b => ImagePreloader.priorityOrder (ImagePreloader.effPriority b) ≤
        ImagePreloader.priorityOrder (ImagePreloader.effPriority a)) ∧
    (ImagePreloader.sortByPriority items).filter
        (fun it => ImagePreloader.effPriority it == .high) =
      items.filter (fun it => ImagePreloader.effPriority it == .high) ∧
    (ImagePreloader.sortByPriority items).filter
        (fun it => ImagePreloader.effPriority it == .medium) =
      items.filter (fun it => ImagePreloader.effPriority it == .medium) ∧
    (ImagePreloader.sortByPriority items).filter
        (fun it => ImagePreloader.effPriority it == .low) =
      items.filter (fun it => ImagePreloader.effPriority it == .low) ∧
    ImagePreloader.batchTrace o items =
      (ImagePreloader.sortByPriority items).flatMap
        fun it => [.start it, .settle it] := by
  refine ⟨?_, ImagePreloader.sortByPriority_stable items .high,
    ImagePreloader.sortByPriority_stable items .medium,
    ImagePreloader.sortByPriority_stable items .low, ?_⟩
  · have := List.sorted_mergeSort
      ImagePreloader.batchLE_trans ImagePreloader.batchLE_total items
    refine this.imp ?_
    intro a b hab
    simpa [ImagePreloader.batchLE] using hab
  · rw [ImagePreloader.batchTrace, h1, ImagePreloader.chunksOf_one,
      ImagePreloader.flatMap_singleton_chunks]
    rfl

theorem preload_batch_priority_witness :
    ({ maxConcurrent := 1 } : ImagePreloader.PreloadOptions).maxConcurrent = 1 ∧
    ImagePreloader.batchTrace { maxConcurrent := 1 }
        [⟨"l.png", some .low⟩, ⟨"h.png", some .high⟩, ⟨"m.png", some .medium⟩] =
      (ImagePreloader.sortByPriority
        [⟨"l.png", some .low⟩, ⟨"h.png", some .high⟩, ⟨"m.png", some .medium⟩]).flatMap
        fun it => [.start it, .settle it] :=
  ⟨rfl,
   (preload_batch_priority { maxConcurrent := 1 }
     [⟨"l.png", some .low⟩, ⟨"h.png", some .high⟩, ⟨"m.png", some .medium⟩]
     rfl).2.2.2.2⟩

/-! ## The paginated album loader (`src/src/hooks/useInfiniteAlbums.ts`)

State of `useInfiniteAlbums` and its operations for an arbitrary item type
(the source instantiates the generic `PaginatedResponse<T>` at `Album`).
`fetch page` is the settled outcome of
`executeWithRetry(() => mockDataService.getAlbumsPaginated(page, pageSize))`:
either the fetched page or the error surfaced after the retry policy gives
up.  `loadAlbumsPage` is modelled by its net effect on the hook state
(`loading` is set for the duration of the call and cleared in `finally`;
`error` and `lastFailedPage` are cleared on entry and set again only in
the catch branch). -/

namespace InfiniteAlbums

structure PaginationInfo where
  page : Nat
  pageSize : Nat
  totalAlbums : Nat
  totalPages : Nat
  hasNextPage : Bool
  hasPreviousPage : Bool
deriving DecidableEq

structure PaginatedResponse (α : Type) where
  data : List α
  pagination : PaginationInfo
deriving DecidableEq

structure AlbumsState (α : Type) where
  albums : List α
  currentPage : Nat
  loading : Bool
  error : Option String
  hasNextPage : Bool
  lastFailedPage : Option Nat
deriving DecidableEq

/-- Initial hook state: `[]`, page 1, not loading, no error, `hasNextPage`
optimistically true, no failed page. -/
def initialState : AlbumsState α := ⟨[], 1, false, none, true, none⟩

/-- `loadAlbumsPage(page, reset)` (lines 44-70). -/
def loadAlbumsPage (fetch : Nat → Except JsError (PaginatedResponse α))
    (st : AlbumsState α) (page : Nat) (reset : Bool) : AlbumsState α :=
  match fetch page with
  | .ok response =>
    { albums := if reset then response.data else st.albums ++ response.data
      currentPage := page
      loading := false
      error := none
      hasNextPage := response.pagination.hasNextPage
      lastFailedPage := none }
  | .error e =>
    { st with loading := false, error := some e.message, lastFailedPage := some page }

/-- `loadMore()` (lines 72-75): guarded by `hasNextPage && !loading`,
fetches `currentPage + 1` without reset. -/
def loadMore (fetch : Nat → Except JsError (PaginatedResponse α))
    (st : AlbumsState α) : AlbumsState α :=
  if !st.hasNextPage || st.loading then st
  else loadAlbumsPage fetch st (st.currentPage + 1) false

/-- `refresh()` (lines 77-82): reset the list and pagination, then load
page 1 with reset. -/
def refresh (fetch : Nat → Except JsError (PaginatedResponse α))
    (st : AlbumsState α) : AlbumsState α :=
  loadAlbumsPage fetch
    { st with currentPage := 1, albums := [], hasNextPage := true } 1 true

/-- `retry()` (lines 84-88): re-attempt exactly the remembered failed page
(`if (lastFailedPage)` is JS-truthy, hence the `p = 0` guard), resetting
only when that page is page 1. -/
def retry (fetch : Nat → Except JsError (PaginatedResponse α))
    (st : AlbumsState α) : AlbumsState α :=
  match st.lastFailedPage with
  | some p => if p = 0 then st else loadAlbumsPage fetch st p (p == 1)
  | none => st

/-- Scenario A page-1 items: 12 albums (by id). -/
def page1Data : List Nat := (List.range 12).map (· + 1)

/-- Scenario A page-2 items: 8 albums (by id). -/
def page2Data : List Nat := (List.range 8).map (· + 13)

/-- Scenario A fetch collaborator: `fetchPage(1,12)` yields 12 albums with
`hasNextPage = true`, `fetchPage(2,12)` yields 8 albums with
`hasNextPage = false`. -/
def fetchAB : Nat → Except JsError (PaginatedResponse Nat) := fun p =>
  if p = 1 then .ok ⟨page1Data, ⟨1, 12, 20, 2, true, false⟩⟩
  else if p = 2 then .ok ⟨page2Data, ⟨2, 12, 20, 2, false, true⟩⟩
  else .error ⟨0, "not found"⟩

end InfiniteAlbums

/-- C6 (append ordering / Scenario A): a successful `loadMore()` appends
the fetched page's items after the already-accumulated items, sets
`hasNextPage` from the returned pagination metadata and advances
`currentPage`; and concretely, after `refresh()` and one `loadMore()`
against the Scenario A collaborator the accumulated list is
`page1.items ++ page2.items` — 20 albums in that order — with
`hasNextPage = false`. -/
theorem albums_append_ordering {α : Type}
    (fetch : Nat → Except JsError (InfiniteAlbums.PaginatedResponse α))
    (st : InfiniteAlbums.AlbumsState α) (resp : InfiniteAlbums.PaginatedResponse α)
    (h1 : st.hasNextPage = true) (h2 : st.loading = false)
    (h3 : fetch (st.currentPage + 1) = .ok resp) :
    (InfiniteAlbums.loadMore fetch st).albums = st.albums ++ resp.data ∧
    (InfiniteAlbums.loadMore fetch st).hasNextPage = resp.pagination.hasNextPage ∧
    (InfiniteAlbums.loadMore fetch st).currentPage = st.currentPage + 1 ∧
    (InfiniteAlbums.loadMore InfiniteAlbums.fetchAB
        (InfiniteAlbums.refresh InfiniteAlbums.fetchAB
          (InfiniteAlbums.initialState : InfiniteAlbums.AlbumsState Nat))).albums =
      InfiniteAlbums.page1Data ++ InfiniteAlbums.page2Data ∧
    (InfiniteAlbums.loadMore InfiniteAlbums.fetchAB
        (InfiniteAlbums.refresh InfiniteAlbums.fetchAB
          (InfiniteAlbums.initialState : InfiniteAlbums.AlbumsState Nat))).albums.length = 20 ∧
    (InfiniteAlbums.loadMore InfiniteAlbums.fetchAB
        (InfiniteAlbums.refresh InfiniteAlbums.fetchAB
          (InfiniteAlbums.initialState : InfiniteAlbums.AlbumsState Nat))).hasNextPage = false := by
  refine ⟨?_, ?_, ?_, by decide, by decide, by decide⟩ <;>
    simp [InfiniteAlbums.loadMore, InfiniteAlbums.loadAlbumsPage, h1, h2, h3]

theorem albums_append_ordering_witness :
    (InfiniteAlbums.refresh InfiniteAlbums.fetchAB
      (InfiniteAlbums.initialState : InfiniteAlbums.AlbumsState Nat)).hasNextPage = true ∧
    (InfiniteAlbums.loadMore InfiniteAlbums.fetchAB
        (InfiniteAlbums.refresh InfiniteAlbums.fetchAB
          (InfiniteAlbums.initialState : InfiniteAlbums.AlbumsState Nat))).albums =
      (InfiniteAlbums.refresh InfiniteAlbums.fetchAB
        (InfiniteAlbums.initialState : InfiniteAlbums.AlbumsState Nat)).albums ++
        InfiniteAlbums.page2Data :=
  ⟨by decide,
   (albums_append_ordering InfiniteAlbums.fetchAB
     (InfiniteAlbums.refresh InfiniteAlbums.fetchAB InfiniteAlbums.initialState)
     ⟨InfiniteAlbums.page2Data, ⟨2, 12, 20, 2, false, true⟩⟩
     (by decide) (by decide) rfl).1⟩

/-- C7 (failure isolation): a `loadMore()` whose page fetch ultimately
fails leaves the accumulated item list exactly unchanged, records the
error message, and remembers the failing page number; `retry()` then
re-attempts exactly that page (`loadAlbumsPage` at the remembered page,
resetting only for page 1), so a subsequently successful `retry()` appends
that page's items to the untouched accumulated list. -/
theorem albums_failure_isolation {α : Type}
    (fetch fetch₂ : Nat → Except JsError (InfiniteAlbums.PaginatedResponse α))
    (st : InfiniteAlbums.AlbumsState α) (e : JsError)
    (resp : InfiniteAlbums.PaginatedResponse α)
    (h1 : st.hasNextPage = true) (h2 : st.loading = false)
    (h3 : fetch (st.currentPage + 1) = .error e)
    (h4 : fetch₂ (st.currentPage + 1) = .ok resp)
    (h5 : st.currentPage ≠ 0) :
    (InfiniteAlbums.loadMore fetch st).albums = st.albums ∧
    (InfiniteAlbums.loadMore fetch st).error = some e.message ∧
    (InfiniteAlbums.loadMore fetch st).lastFailedPage = some (st.currentPage + 1) ∧
    InfiniteAlbums.retry fetch₂ (InfiniteAlbums.loadMore fetch st) =
      InfiniteAlbums.loadAlbumsPage fetch₂ (InfiniteAlbums.loadMore fetch st)
        (st.currentPage + 1) (st.currentPage + 1 == 1) ∧
    (InfiniteAlbums.retry fetch₂ (InfiniteAlbums.loadMore fetch st)).albums =
      st.albums ++ resp.data ∧
    (InfiniteAlbums.retry fetch₂ (InfiniteAlbums.loadMore fetch st)).currentPage =
      st.currentPage + 1 := by
  have hlm : InfiniteAlbums.loadMore fetch st =
      { st with loading := false,
                error := some e.message,
                lastFailedPage := some (st.currentPage + 1) } := by
    simp [InfiniteAlbums.loadMore, InfiniteAlbums.loadAlbumsPage, h1, h2, h3]
  have hne : ¬ (st.currentPage + 1 = 0) := by omega
  have hne1 : (st.currentPage + 1 == 1) = false := by
    simp; omega
  refine ⟨by rw [hlm], by rw [hlm], by rw [hlm], ?_, ?_, ?_⟩ <;>
    rw [hlm] <;>
    simp [InfiniteAlbums.retry, InfiniteAlbums.loadAlbumsPage, hne, hne1, h4]

theorem albums_failure_isolation_witness :
    (InfiniteAlbums.refresh InfiniteAlbums.fetchAB
      (InfiniteAlbums.initialState : InfiniteAlbums.AlbumsState Nat)).hasNextPage = true ∧
    (InfiniteAlbums.loadMore (fun _ => .error ⟨2, "network fail"⟩)
        (InfiniteAlbums.refresh InfiniteAlbums.fetchAB
          (InfiniteAlbums.initialState : InfiniteAlbums.AlbumsState Nat))).albums =
      (InfiniteAlbums.refresh InfiniteAlbums.fetchAB
        (InfiniteAlbums.initialState : InfiniteAlbums.AlbumsState Nat)).albums :=
  ⟨by decide,
   (albums_failure_isolation (fun _ => .error ⟨2, "network fail"⟩) InfiniteAlbums.fetchAB
     (InfiniteAlbums.refresh InfiniteAlbums.fetchAB InfiniteAlbums.initialState)
     ⟨2, "network fail"⟩ ⟨InfiniteAlbums.page2Data, ⟨2, 12, 20, 2, false, true⟩⟩
     (by decide) (by decide) rfl rfl (by decide)).1⟩

end PhotoApp
